import Mathlib

/-!
Shallow embedding of the pupyl vector-index engine and image store
(`pupyl/indexer/facets.py`, `pupyl/storage/database.py`,
`pupyl/addendum/operators.py`, `pupyl/search.py`) and proofs about it.

Vectors are modelled as lists of rationals; the Annoy tree of a
`pupyl.indexer.facets.Index` is the list of its item vectors in id order
(every `add_item` call in the source uses consecutive ids `0..n-1`).
The angular metric of the ANN engine involves square roots, so the
engine's distance is a parameter `d` of the operations that query it;
the theorems assume only the facts used (`d v v = 0`), and witnesses
instantiate `d` with a computable metric having the same property.
Filesystem contents (index file, image payloads, metadata JSON) are
modelled at the value level.
-/

/-- A tensor (`numpy.ndarray or list` in the source). -/
abbrev Vec := List ℚ

/-- Python `sum(tensor)`: left fold of addition starting at `0`. -/
def vsum (v : Vec) : ℚ := v.foldl (· + ·) 0

/-- Python `int(q)`: truncation toward zero. -/
def pyInt (q : ℚ) : ℤ := if 0 ≤ q then ⌊q⌋ else ⌈q⌉

/-- `pupyl/addendum/operators.py`, `intmul`:
`lambda x, y: 1 if int(x * y) <= 0 else int(x * y)`. -/
def intmul (x y : ℚ) : ℤ := if pyInt (x * y) ≤ 0 then 1 else pyInt (x * y)

/-- First argmin of `f` over the candidate list `l`, seeded with `b`. -/
def argminFold (f : Nat → ℚ) (l : List Nat) (b : Nat) : Nat :=
  l.foldl (fun best i => if f i < f best then i else best) b

/-- Annoy `get_nns_by_vector(q, n=1)[0]` on a tree holding the vectors
`tree` at ids `0..n-1`: the id whose vector minimises the metric `d`
against the query (first id in case of ties). -/
def nearestId (d : Vec → Vec → ℚ) (tree : List Vec) (q : Vec) : Nat :=
  argminFold (fun i => d q (tree.getD i [])) (List.range tree.length) 0

/-- The first distance of Annoy
`get_nns_by_item(position, 1, include_distances=True)`: the distance from
item `position`'s vector to the vector of its nearest item (which may be
itself). This models `Index.item(position, top=1, distances=True)[1][0]`. -/
def itemTopDist (d : Vec → Vec → ℚ) (tree : List Vec) (position : Nat) : ℚ :=
  d (tree.getD position []) (tree.getD (nearestId d tree (tree.getD position [])) [])

/-- Exceptions of `pupyl/indexer/exceptions.py` reachable from the
modelled operations, plus Python's builtin `IndexError`. -/
inductive IndexErr where
  | nullTensor
  | indexNotBuildYet
  | indexError
deriving DecidableEq, Repr

/-- `Index.append` restricted to the `self._is_new_index` branch
(`facets.py` lines 279-305), after which the caller re-checks nothing:
the null-tensor guard, the optional unicity check (only when more than
one item is stored), and `add_item(len(self), tensor)`.
Returns the new item list and the number of duplicate warnings emitted. -/
def appendNewE (d : Vec → Vec → ℚ) (tree : List Vec) (tensor : Vec)
    (check_unique : Bool) : Except IndexErr (List Vec × Nat) :=
  if vsum tensor = 0 then .error .nullTensor
  else if check_unique ∧ 1 < tree.length then
    if itemTopDist d tree (nearestId d tree tensor) ≤ 1/20 then
      .ok (tree, 1)
    else
      .ok (tree ++ [tensor], 0)
  else
    .ok (tree ++ [tensor], 0)

/-- The loop body of the non-new `Index.append` branch: replay every
stored value, then the new tensor, through the append of a fresh
volatile index (which is always in the new state). -/
def replayAll (d : Vec → Vec → ℚ) (check_unique : Bool) :
    List Vec → List Vec × Nat → Except IndexErr (List Vec × Nat)
  | [], acc => .ok acc
  | v :: vs, (t, w) =>
    match appendNewE d t v check_unique with
    | .error e => .error e
    | .ok (t', w') => replayAll d check_unique vs (t', w + w')

/-- State of a `pupyl.indexer.facets.Index`: the loaded tree contents,
the new-index flag, the constructor parameters, whether the in-memory
structure is loaded, and the contents of the persisted index file
(`none` when the file does not exist). -/
structure Index where
  tree : List Vec
  isNewIndex : Bool
  size : Nat
  trees : ℚ
  loaded : Bool
  file : Option (List Vec)
deriving DecidableEq, Repr

namespace Index

/-- `Index.__init__` for a permanent index on a data dir whose index
file holds `file` (`none` = absent): load it, otherwise start a new
empty index. -/
def init (size : Nat) (trees : ℚ) (file : Option (List Vec)) : Index :=
  match file with
  | some t => { tree := t, isNewIndex := false, size := size, trees := trees,
                loaded := true, file := some t }
  | none => { tree := [], isNewIndex := true, size := size, trees := trees,
              loaded := true, file := none }

/-- `Index.__getitem__`: non-negative positions read directly, negative
positions read `get_item_vector(len(self) - abs(position))`. -/
def getItem (idx : Index) (position : ℤ) : Vec :=
  if 0 ≤ position then idx.tree.getD position.toNat []
  else idx.tree.getD (idx.tree.length - (-position).toNat) []

/-- `Index.append(tensor, check_unique)`. In the new state the item is
added in place; otherwise every stored value plus the tensor is replayed
into a volatile index whose built file then replaces the persisted one
(`move` + `refresh`). Returns the updated index and how many duplicate
warnings were emitted. -/
def append (d : Vec → Vec → ℚ) (idx : Index) (tensor : Vec)
    (check_unique : Bool) : Except IndexErr (Index × Nat) :=
  if vsum tensor = 0 then .error .nullTensor
  else if idx.isNewIndex then
    match appendNewE d idx.tree tensor check_unique with
    | .error e => .error e
    | .ok (t, w) => .ok ({ idx with tree := t }, w)
  else
    match replayAll d check_unique (idx.tree ++ [tensor]) ([], 0) with
    | .error e => .error e
    | .ok (t, w) => .ok ({ idx with tree := t, file := some t }, w)

/-- The copy loop of `Index.remove` over the `(item, value)` pairs of
`items_values()`: every pair except the one at `position` is added to
the scratch index, in iteration order (the target ids assigned through
the `shrink` flag are exactly consecutive, so the scratch tree is the
accumulated list). -/
def removeSurvivorsAux (position : Nat) : List (Nat × Vec) → List Vec → List Vec
  | [], acc => acc
  | iv :: rest, acc =>
    removeSurvivorsAux position rest (if iv.1 = position then acc else acc ++ [iv.2])

/-- The scratch tree built by `Index.remove`. -/
def removeSurvivors (tree : List Vec) (position : Nat) : List Vec :=
  removeSurvivorsAux position ((List.range tree.length).zip tree) []

/-- `Index.remove(position)` (`facets.py` lines 321-363). Positions are
modelled as naturals; no modelled caller passes a negative position. -/
def remove (idx : Index) (position : Nat) : Except IndexErr Index :=
  if idx.isNewIndex then .error .indexNotBuildYet
  else if idx.tree.length < position then .error .indexError
  else
    let t := removeSurvivors idx.tree position
    .ok { idx with tree := t, file := some t }

/-- The index state a successful in-range `remove` leaves behind: the
erased tree, both loaded and persisted. -/
def afterRemove (idx : Index) (i : Nat) : Index :=
  { idx with
      tree := idx.tree.eraseIdx i,
      file := some (idx.tree.eraseIdx i) }

/-- `Index.pop(position=None)`. `if position:` is Python truthiness, so
both `None` and `0` fall into the last-item branch. -/
def pop (idx : Index) (position : Option Nat) : Except IndexErr (Vec × Index) :=
  let vp : Vec × Nat :=
    match position with
    | some (Nat.succ k) => (idx.getItem (Nat.succ k : Nat), Nat.succ k)
    | _ => (idx.getItem (-1), idx.tree.length - 1)
  match idx.remove vp.2 with
  | .error e => .error e
  | .ok idx2 => .ok (vp.1, idx2)

/-- `Index.__exit__(exc_type, exc_val, exc_tb)`: when no exception is
propagating (`excType = false`), build-and-save if the index is new and
unload the tree; otherwise do nothing. The second component reports the
argument passed to `build` (`none` when `build` was not called). -/
def exit (idx : Index) (excType : Bool) : Index × Option ℤ :=
  if excType = false then
    if idx.isNewIndex then
      ({ idx with file := some idx.tree, loaded := false },
       some (intmul idx.size idx.trees))
    else
      ({ idx with loaded := false }, none)
  else
    (idx, none)

/-- Sequential appends, as done by the indexing loop of
`PupylImageSearch.index` (phase 3) and by test scenarios. -/
def appendSeq (d : Vec → Vec → ℚ) (check_unique : Bool) :
    Index → List Vec → Except IndexErr Index
  | idx, [] => .ok idx
  | idx, v :: vs =>
    match idx.append d v check_unique with
    | .error e => .error e
    | .ok (idx', _) => appendSeq d check_unique idx' vs

end Index

/-- A computable stand-in metric (squared Euclidean distance) used by
witnesses; it shares with Annoy's angular metric the only property the
theorems assume, `d v v = 0`. -/
def sqDist (u v : Vec) : ℚ :=
  ((u.zip v).foldl (fun acc p => acc + (p.1 - p.2) ^ 2) 0)

-- basic computation lemmas

theorem vsum_replicate_zero (D : Nat) : vsum (List.replicate D (0 : ℚ)) = 0 := by
  have h : ∀ (n : Nat) (acc : ℚ),
      List.foldl (· + ·) acc (List.replicate n (0 : ℚ)) = acc := by
    intro n
    induction n with
    | zero => intro acc; rfl
    | succ m ih => intro acc; simpa [List.replicate_succ] using ih acc
  simpa [vsum] using h D 0

theorem append_error_of_vsum_zero (d : Vec → Vec → ℚ) (idx : Index) (v : Vec)
    (cu : Bool) (h : vsum v = 0) :
    idx.append d v cu = .error .nullTensor := by
  simp [Index.append, h]

/-- C9: for every dimension `D` and every index state, appending the
all-zero vector `zeros(D)` raises `NullTensorError` (the index is
returned unchanged in no branch: the call produces no new state). -/
theorem C9_append_zeros_raises (d : Vec → Vec → ℚ) (idx : Index) (D : Nat)
    (cu : Bool) :
    idx.append d (List.replicate D (0 : ℚ)) cu = .error .nullTensor :=
  append_error_of_vsum_zero d idx _ cu (vsum_replicate_zero D)

/-- C10: `append` raises `NullTensorError` for every tensor whose
component sum is exactly zero, because the guard compares `sum(tensor)`
with `0` rather than testing each component. -/
theorem C10_append_zero_sum_raises (d : Vec → Vec → ℚ) (idx : Index) (v : Vec)
    (cu : Bool) (h : vsum v = 0) :
    idx.append d v cu = .error .nullTensor :=
  append_error_of_vsum_zero d idx v cu h

/-- An index state used by concrete witnesses: a loaded, already-built
index over two stored vectors. -/
def builtIdx2 : Index :=
  Index.init 2 (1/1000) (some [[1, 0], [0, 1]])

/-- C10 witness: `[1, -1, 0, 0]` is not the all-zero vector, its
component sum is zero, and appending it to a concrete index raises
`NullTensorError`. -/
theorem vsum_example_zero : vsum [1, -1, 0, 0] = 0 := by
  norm_num [vsum]

-- the nearest-neighbour fold

theorem argminFold_spec (f : Nat → ℚ) (l : List Nat) (b : Nat) :
    (argminFold f l b = b ∨ argminFold f l b ∈ l) ∧
    f (argminFold f l b) ≤ f b ∧
    ∀ i ∈ l, f (argminFold f l b) ≤ f i := by
  induction l generalizing b with
  | nil => simp [argminFold]
  | cons x xs ih =>
    by_cases hx : f x < f b
    · have hstep : argminFold f (x :: xs) b = argminFold f xs x := by
        simp [argminFold, hx]
      obtain ⟨hmem, hle, hall⟩ := ih x
      rw [hstep]
      refine ⟨?_, le_trans hle (le_of_lt hx), ?_⟩
      · rcases hmem with h | h
        · exact Or.inr (by simp [h])
        · exact Or.inr (List.mem_cons_of_mem x h)
      · intro i hi
        rcases List.mem_cons.mp hi with h | h
        · rw [h]; exact hle
        · exact hall i h
    · have hstep : argminFold f (x :: xs) b = argminFold f xs b := by
        simp [argminFold, hx]
      obtain ⟨hmem, hle, hall⟩ := ih b
      rw [hstep]
      refine ⟨?_, hle, ?_⟩
      · rcases hmem with h | h
        · exact Or.inl h
        · exact Or.inr (List.mem_cons_of_mem x h)
      · intro i hi
        rcases List.mem_cons.mp hi with h | h
        · rw [h]; exact le_trans hle (not_lt.mp hx)
        · exact hall i h

theorem nearestId_lt (d : Vec → Vec → ℚ) (tree : List Vec) (q : Vec)
    (h : 0 < tree.length) : nearestId d tree q < tree.length := by
  rcases (argminFold_spec (fun i => d q (tree.getD i []))
      (List.range tree.length) 0).1 with h0 | hm
  · rw [nearestId, h0]; exact h
  · exact List.mem_range.mp hm

theorem nearestId_min (d : Vec → Vec → ℚ) (tree : List Vec) (q : Vec)
    (i : Nat) (hi : i < tree.length) :
    d q (tree.getD (nearestId d tree q) []) ≤ d q (tree.getD i []) :=
  (argminFold_spec (fun j => d q (tree.getD j []))
      (List.range tree.length) 0).2.2 i (List.mem_range.mpr hi)

/-- The distance the unicity check of `append` actually compares with
`0.05` is the distance from the candidate's nearest item to that item's
own nearest item — at most its distance to itself, which is `0`. -/
theorem itemTopDist_nearest_le (d : Vec → Vec → ℚ) (hd0 : ∀ v, d v v = 0)
    (tree : List Vec) (q : Vec) (h : 0 < tree.length) :
    itemTopDist d tree (nearestId d tree q) ≤ 1/20 := by
  set pos := nearestId d tree q with hpos
  have hlt : pos < tree.length := nearestId_lt d tree q h
  have hle : d (tree.getD pos []) (tree.getD (nearestId d tree (tree.getD pos [])) [])
      ≤ d (tree.getD pos []) (tree.getD pos []) :=
    nearestId_min d tree (tree.getD pos []) pos hlt
  rw [hd0] at hle
  exact le_trans hle (by norm_num)

-- C2: the unicity check of append

/-- C2 (amended): on a new-state index, `append(v, check_unique=True)`
runs the unicity check only when the index holds more than one vector,
and the distance it compares with `0.05` is the one from the candidate's
nearest item to that item's own nearest item — `0` — so whenever the
check runs the insert is skipped with a duplicate warning; with at most
one stored vector the check is bypassed and `v` is inserted at the next
id. -/
theorem C2_check_unique_always_skips (d : Vec → Vec → ℚ)
    (hd0 : ∀ v, d v v = 0) (idx : Index) (v : Vec)
    (hnew : idx.isNewIndex = true) (hv : vsum v ≠ 0) :
    (2 ≤ idx.tree.length → idx.append d v true = .ok (idx, 1)) ∧
    (idx.tree.length ≤ 1 →
      idx.append d v true = .ok ({ idx with tree := idx.tree ++ [v] }, 0)) := by
  constructor
  · intro hlen
    have h1 : 1 < idx.tree.length := by omega
    have h0 : 0 < idx.tree.length := by omega
    have hsmall := itemTopDist_nearest_le d hd0 idx.tree v h0
    have happ : appendNewE d idx.tree v true = .ok (idx.tree, 1) := by
      unfold appendNewE
      rw [if_neg hv, if_pos ⟨rfl, h1⟩, if_pos hsmall]
    unfold Index.append
    rw [if_neg hv, if_pos hnew, happ]
  · intro hlen
    have h1 : ¬ ((true : Bool) = true ∧ 1 < idx.tree.length) := by
      intro h; omega
    have happ : appendNewE d idx.tree v true = .ok (idx.tree ++ [v], 0) := by
      unfold appendNewE
      rw [if_neg hv, if_neg h1]
    unfold Index.append
    rw [if_neg hv, if_pos hnew, happ]

/-- The new-state index reached by appending `[1,0]` then `[0,1]`. -/
def newIdx2 : Index :=
  { tree := [[1, 0], [0, 1]], isNewIndex := true, size := 2, trees := 1/1000,
    loaded := true, file := none }

/-- C2 (counterexample): on a new index holding `[1,0]` and `[0,1]`
(reached by two appends), the candidate `[1,1]` is farther than `0.05`
from its nearest stored neighbour, yet `append([1,1], check_unique=True)`
skips the insert and emits the duplicate warning: the length stays `2`
instead of growing to `3` as the claim requires. -/
theorem C2_counterexample :
    Index.appendSeq sqDist true (Index.init 2 (1/1000) none) [[1, 0], [0, 1]]
      = .ok newIdx2 ∧
    1/20 < sqDist [1, 1] (newIdx2.tree.getD (nearestId sqDist newIdx2.tree [1, 1]) []) ∧
    newIdx2.append sqDist [1, 1] true = .ok (newIdx2, 1) := by
  refine ⟨?_, ?_, ?_⟩
  · norm_num [Index.appendSeq, Index.append, appendNewE, Index.init, vsum, newIdx2]
  · norm_num [newIdx2, nearestId, argminFold, sqDist, List.range_succ]
  · norm_num [Index.append, appendNewE, newIdx2, vsum, itemTopDist, nearestId,
      argminFold, sqDist, List.range_succ]

/-- C2 witness for the amended theorem: instantiated at `newIdx2` and
the candidate `[1,1]` with the computable metric. -/
theorem C2_check_unique_always_skips_witness :
    (∀ v, sqDist v v = 0) ∧ newIdx2.isNewIndex = true ∧ vsum [1, 1] ≠ 0 ∧
    2 ≤ newIdx2.tree.length ∧
    newIdx2.append sqDist [1, 1] true = .ok (newIdx2, 1) := by
  have hd0 : ∀ v, sqDist v v = 0 := by
    intro v
    have h : ∀ (l : List ℚ) (acc : ℚ),
        (l.zip l).foldl (fun acc p => acc + (p.1 - p.2) ^ 2) acc = acc := by
      intro l
      induction l with
      | nil => intro acc; rfl
      | cons a l ih => intro acc; simpa using ih acc
    simpa [sqDist] using h v 0
  have hv : vsum [1, 1] ≠ (0 : ℚ) := by norm_num [vsum]
  exact ⟨hd0, rfl, hv,
    by norm_num [newIdx2],
    (C2_check_unique_always_skips sqDist hd0 newIdx2 [1, 1] rfl hv).1
      (by norm_num [newIdx2])⟩

-- C7: context exit

/-- C7 (counterexample): on a loaded, already-built index, `__exit__`
with an exception propagating does nothing at all — in particular the
in-memory tree is not unloaded, contradicting the claim that the handle
is released on every exit path. -/
theorem C7_counterexample :
    builtIdx2.loaded = true ∧ builtIdx2.exit true = (builtIdx2, none) := by
  exact ⟨rfl, rfl⟩

/-- C7 (amended): `__exit__` releases the tree only on the normal exit
path (building with the tree-count formula and persisting first when the
index is new); when an exception is propagating it neither builds, nor
saves, nor unloads. -/
theorem C7_exit_amended (idx : Index) :
    (idx.isNewIndex = true →
      idx.exit false = ({ idx with file := some idx.tree, loaded := false },
        some (intmul idx.size idx.trees))) ∧
    (idx.isNewIndex = false →
      idx.exit false = ({ idx with loaded := false }, none)) ∧
    (idx.exit false).1.loaded = false ∧
    idx.exit true = (idx, none) := by
  refine ⟨?_, ?_, ?_, ?_⟩
  · intro h; simp [Index.exit, h]
  · intro h; simp [Index.exit, h]
  · by_cases h : idx.isNewIndex <;> simp [Index.exit, h]
  · simp [Index.exit]

/-- C7 witness: the amended theorem applied at a concrete loaded index. -/
theorem C7_exit_amended_witness :
    builtIdx2.isNewIndex = false ∧
    builtIdx2.exit false = ({ builtIdx2 with loaded := false }, none) ∧
    builtIdx2.exit true = (builtIdx2, none) :=
  ⟨rfl, (C7_exit_amended builtIdx2).2.1 rfl, (C7_exit_amended builtIdx2).2.2.2⟩

-- C8: the tree-count formula

/-- C8 (amended): closing a new index builds with
`intmul(size, trees) = max(1, floor(size × trees))` trees, where `size`
is the vector dimension supplied at open — not the number of indexed
items. -/
theorem C8_build_tree_count (idx : Index) (hnew : idx.isNewIndex = true)
    (hnn : 0 ≤ (idx.size : ℚ) * idx.trees) :
    (idx.exit false).2 = some (intmul idx.size idx.trees) ∧
    intmul idx.size idx.trees = max 1 ⌊(idx.size : ℚ) * idx.trees⌋ := by
  constructor
  · simp [Index.exit, hnew]
  · have hfl : pyInt ((idx.size : ℚ) * idx.trees) = ⌊(idx.size : ℚ) * idx.trees⌋ :=
      if_pos hnn
    rw [intmul, hfl]
    split <;> omega

/-- A new index holding ten items of dimension two, with density 0.9. -/
def newIdx10 : Index :=
  { tree := List.replicate 10 [1, 1], isNewIndex := true, size := 2,
    trees := 9/10, loaded := true, file := none }

/-- C8 (counterexample): closing `newIdx10` builds with
`max(1, int(size × density)) = max(1, int(2 × 0.9)) = 1` tree, while the
claim's formula `max(1, floor(density × item_count)) = max(1, floor(0.9
× 10)) = 9` differs. -/
theorem C8_counterexample :
    newIdx10.tree.length = 10 ∧
    (newIdx10.exit false).2 = some 1 ∧
    max 1 ⌊newIdx10.trees * (newIdx10.tree.length : ℚ)⌋ = 9 ∧
    (1 : ℤ) ≠ 9 := by
  refine ⟨rfl, ?_, ?_, by decide⟩
  · norm_num [Index.exit, newIdx10, intmul, pyInt]
  · norm_num [newIdx10]

/-- C8 witness: the amended theorem applied at `newIdx10`. -/
theorem C8_build_tree_count_witness :
    newIdx10.isNewIndex = true ∧ 0 ≤ (newIdx10.size : ℚ) * newIdx10.trees ∧
    intmul newIdx10.size newIdx10.trees
      = max 1 ⌊(newIdx10.size : ℚ) * newIdx10.trees⌋ :=
  ⟨rfl, by norm_num [newIdx10],
    (C8_build_tree_count newIdx10 rfl (by norm_num [newIdx10])).2⟩

-- the copy loop of remove

theorem removeSurvivorsAux_zip (pos : Nat) (l : List Vec) :
    ∀ (k : Nat) (acc : List Vec),
    Index.removeSurvivorsAux pos ((List.range' k l.length).zip l) acc
      = acc ++ (if k ≤ pos then l.eraseIdx (pos - k) else l) := by
  induction l with
  | nil => intro k acc; simp [Index.removeSurvivorsAux]
  | cons a l ih =>
    intro k acc
    rw [List.length_cons, List.range'_succ, List.zip_cons_cons]
    simp only [Index.removeSurvivorsAux]
    by_cases hk : k = pos
    · subst hk
      rw [if_pos rfl, ih (k + 1) acc, if_neg (by omega : ¬ k + 1 ≤ k),
        if_pos (le_refl k), Nat.sub_self]
      simp
    · rw [if_neg hk, ih (k + 1) (acc ++ [a])]
      by_cases hle : k + 1 ≤ pos
      · rw [if_pos hle, if_pos (by omega : k ≤ pos),
          (by omega : pos - k = (pos - (k + 1)) + 1)]
        simp
      · rw [if_neg hle, if_neg (by omega : ¬ k ≤ pos)]
        simp

theorem removeSurvivors_eq_eraseIdx (tree : List Vec) (position : Nat) :
    Index.removeSurvivors tree position = tree.eraseIdx position := by
  have h := removeSurvivorsAux_zip position tree 0 []
  rw [Index.removeSurvivors, List.range_eq_range']
  simpa using h

-- C3: remove bounds and the not-built error

/-- An already-built (loaded from file) index holding one vector. -/
def builtIdx1 : Index := Index.init 2 (1/1000) (some [[1, 0]])

/-- C3 (counterexample): on a built index of length 1, `remove(1)` —
with `id = length`, which the claim says must raise `IndexError` — does
not raise: the guard is `position > len(self)`, so the call succeeds as
a no-op rebuild. -/
theorem C3_counterexample :
    builtIdx1.tree.length = 1 ∧ builtIdx1.remove 1 = .ok builtIdx1 :=
  ⟨rfl, rfl⟩

/-- C3 (amended): on a built index of length `n`, `remove(id)` raises
`IndexError` exactly when `id > n` (not `id ≥ n`): every `id ≤ n`
succeeds, with `id = n` a no-op rebuild; on a new (never built) index
`remove` raises `IndexNotBuildYet`, which is distinct from
`IndexError`. -/
theorem C3_remove_bounds (idx : Index) (i : Nat)
    (hbuilt : idx.isNewIndex = false) :
    (idx.remove i = .error .indexError ↔ idx.tree.length < i) ∧
    (i ≤ idx.tree.length → idx.remove i = .ok (idx.afterRemove i)) ∧
    (∀ jdx : Index, jdx.isNewIndex = true →
      jdx.remove i = .error .indexNotBuildYet) ∧
    IndexErr.indexNotBuildYet ≠ IndexErr.indexError := by
  refine ⟨?_, ?_, ?_, by decide⟩
  · by_cases hlt : idx.tree.length < i
    · simp [Index.remove, hbuilt, hlt]
    · simp [Index.remove, hbuilt, hlt]
  · intro h
    have hlt : ¬ idx.tree.length < i := by omega
    simp [Index.remove, Index.afterRemove, hbuilt, hlt,
      removeSurvivors_eq_eraseIdx]
  · intro jdx hj
    simp [Index.remove, hj]

/-- C3 witness: the amended theorem applied on a built two-item index at
position 1. -/
theorem C3_remove_bounds_witness :
    builtIdx2.isNewIndex = false ∧ 1 ≤ builtIdx2.tree.length ∧
    builtIdx2.remove 1 = .ok (builtIdx2.afterRemove 1) :=
  ⟨rfl, by decide, (C3_remove_bounds builtIdx2 1 rfl).2.1 (by decide)⟩

-- C5: pop

/-- C5 (counterexample): on a built index holding `[1,0]` at id 0 and
`[0,1]` at id 1, `pop(0)` does not return the id-0 vector: Python's
`if position:` treats `0` as falsy, so the call returns and removes the
last id instead. -/
theorem C5_counterexample :
    builtIdx2.tree = [[1, 0], [0, 1]] ∧
    builtIdx2.pop (some 0) = .ok ([0, 1], builtIdx2.afterRemove 1) ∧
    (builtIdx2.afterRemove 1).tree = [[1, 0]] ∧
    ([0, 1] : Vec) ≠ [1, 0] :=
  ⟨rfl, rfl, rfl, by norm_num⟩

/-- C5 (amended): on a built index of length `n`, `pop(p)` for
`1 ≤ p < n` returns the vector stored at id `p` and removes that id;
`pop()` with no position returns and removes the vector at the last id
`n - 1`; but `pop(0)` behaves exactly like `pop()` (Python truthiness),
not like the removal of id 0. -/
theorem C5_pop_behavior (idx : Index) (hbuilt : idx.isNewIndex = false) :
    (∀ p : Nat, 1 ≤ p → p < idx.tree.length →
      idx.pop (some p) = .ok (idx.tree.getD p [], idx.afterRemove p)) ∧
    (0 < idx.tree.length →
      idx.pop none = .ok (idx.tree.getD (idx.tree.length - 1) [],
        idx.afterRemove (idx.tree.length - 1))) ∧
    idx.pop (some 0) = idx.pop none := by
  refine ⟨?_, ?_, rfl⟩
  · intro p hp1 hplen
    obtain ⟨k, rfl⟩ : ∃ k, p = Nat.succ k := ⟨p - 1, by omega⟩
    have hlt : ¬ idx.tree.length < Nat.succ k := by omega
    simp [Index.pop, Index.remove, Index.getItem, Index.afterRemove, hbuilt,
      hlt, removeSurvivors_eq_eraseIdx]
    intro hneg
    exact absurd hneg (by omega)
  · intro hlen
    have hlt : ¬ idx.tree.length < idx.tree.length - 1 := by omega
    simp [Index.pop, Index.remove, Index.getItem, Index.afterRemove, hbuilt,
      hlt, removeSurvivors_eq_eraseIdx]

/-- C5 witness: the amended theorem applied on a built two-item index at
position 1. -/
theorem C5_pop_behavior_witness :
    builtIdx2.isNewIndex = false ∧ 1 < builtIdx2.tree.length ∧
    builtIdx2.pop (some 1)
      = .ok (builtIdx2.tree.getD 1 [], builtIdx2.afterRemove 1) :=
  ⟨rfl, by decide,
    (C5_pop_behavior builtIdx2 rfl).1 1 (le_refl 1) (by decide)⟩

-- C6: persistence round trip

theorem appendSeq_new (d : Vec → Vec → ℚ) (vs : List Vec) :
    ∀ idx : Index, idx.isNewIndex = true → (∀ v ∈ vs, vsum v ≠ 0) →
    Index.appendSeq d false idx vs = .ok { idx with tree := idx.tree ++ vs } := by
  induction vs with
  | nil => intro idx _ _; simp [Index.appendSeq]
  | cons v vs ih =>
    intro idx hnew hall
    have hv : vsum v ≠ 0 := hall v (List.mem_cons_self v vs)
    have happ : idx.append d v false = .ok ({ idx with tree := idx.tree ++ [v] }, 0) := by
      unfold Index.append appendNewE
      rw [if_neg hv, if_pos hnew, if_neg hv,
        if_neg (fun h => Bool.false_ne_true h.1)]
    simp only [Index.appendSeq]
    rw [happ]
    show Index.appendSeq d false { idx with tree := idx.tree ++ [v] } vs = _
    rw [ih { idx with tree := idx.tree ++ [v] } hnew
      (fun w hw => hall w (List.mem_cons_of_mem v hw))]
    simp

/-- C6: appending `N` non-null vectors to a fresh permanent index,
closing it (normal exit: build + persist), and reopening an index from
the same persisted file yields `length() = N` and, for every `i < N`,
the vector stored at id `i` equal to the `i`-th appended vector (exact
equality in the rational model, hence within any float tolerance). -/
theorem C6_round_trip (d : Vec → Vec → ℚ) (size : Nat) (trees : ℚ)
    (vs : List Vec) (h : ∀ v ∈ vs, vsum v ≠ 0) :
    ∃ idx1, Index.appendSeq d false (Index.init size trees none) vs = .ok idx1 ∧
      (Index.init size trees ((idx1.exit false).1.file)).tree.length = vs.length ∧
      (Index.init size trees ((idx1.exit false).1.file)).isNewIndex = false ∧
      ∀ i, (hi : i < vs.length) →
        (Index.init size trees ((idx1.exit false).1.file)).getItem i
          = vs.get ⟨i, hi⟩ := by
  refine ⟨_, appendSeq_new d vs (Index.init size trees none) rfl h, ?_, ?_, ?_⟩
  · simp [Index.init, Index.exit]
  · simp [Index.init, Index.exit]
  · intro i hi
    have h0 : (0 : ℤ) ≤ (i : ℤ) := Int.natCast_nonneg i
    simp [Index.init, Index.exit, Index.getItem, h0,
      List.getElem?_eq_getElem hi]

theorem nonNullPair : ∀ v ∈ ([[1, 0], [0, 1]] : List Vec), vsum v ≠ 0 := by
  intro v hv
  rcases List.mem_cons.mp hv with h | h
  · rw [h]; norm_num [vsum]
  · rcases List.mem_cons.mp h with h' | h'
    · rw [h']; norm_num [vsum]
    · cases h'

-- the image store (pupyl/storage/database.py)

/-- A path inside the database directory: (bucket, id, extension) —
`mount_file_name` always produces `data_dir/bucket/id.extension`.
Extensions are stored without the leading dot, as the source writes
them. -/
abbrev DbPath := Nat × Nat × String

/-- Filesystem-level failures of the store operations: `IndexError`
raised by `load_image_metadata` on a missing metadata file, and
`FileNotFoundError` raised by `shutil.move`/`os.remove` on a missing
source file. -/
inductive DbErr where
  | indexError
  | fileNotFound
deriving DecidableEq, Repr

/-- `ImageDatabase.what_bucket`: `index // bucket_size`. -/
def what_bucket (bucket_size index : Nat) : Nat := index / bucket_size

/-- `ImageDatabase.mount_file_name`. -/
def mount_file_name (bucket_size index : Nat) (extension : String) : DbPath :=
  (what_bucket bucket_size index, index, extension)

/-- A metadata JSON file at the value level: the `original_*` fields
(opaque here), the assigned id, and the internal storage path. -/
structure Metadata where
  origin : String
  id : Nat
  internal_path : DbPath
deriving DecidableEq, Repr

/-- Read the file at `p` (`none` when it does not exist). -/
def fsRead {α : Type} (files : List (DbPath × α)) (p : DbPath) : Option α :=
  (files.find? (fun f => f.1 = p)).map (·.2)

/-- Write (create or overwrite) the file at `p`. -/
def fsWrite {α : Type} (files : List (DbPath × α)) (p : DbPath) (a : α) :
    List (DbPath × α) :=
  files.filter (fun f => ¬ f.1 = p) ++ [(p, a)]

/-- Delete the file at `p` (no-op when absent). -/
def fsDelete {α : Type} (files : List (DbPath × α)) (p : DbPath) :
    List (DbPath × α) :=
  files.filter (fun f => ¬ f.1 = p)

/-- `shutil.move(src, dst)`: fails when `src` is absent, overwrites
`dst`. -/
def fsMove {α : Type} (files : List (DbPath × α)) (src dst : DbPath) :
    Except DbErr (List (DbPath × α)) :=
  match fsRead files src with
  | none => .error .fileNotFound
  | some a => .ok (fsWrite (fsDelete files src) dst a)

/-- What the store obtains from a source uri: the fetched (and possibly
re-encoded) payload bytes, the recognized extension, the extracted
original-file metadata, and whether the bytes are a valid image. -/
structure Uri where
  payload : String
  ext : String
  meta : String
  is_image : Bool
deriving DecidableEq, Repr

/-- The on-disk state of a `pupyl.storage.database.ImageDatabase`: its
configuration plus the image payload files and the metadata JSON files
under its data dir. -/
structure ImageDatabase where
  bucket_size : Nat
  import_images : Bool
  imageFiles : List (DbPath × String)
  jsonFiles : List (DbPath × Metadata)
deriving DecidableEq, Repr

namespace ImageDatabase

/-- `ImageDatabase.list_images`: walk the data dir and yield every file
with a recognized image extension, with the id parsed from the file
name. -/
def list_images (db : ImageDatabase) : List (Nat × DbPath) :=
  db.imageFiles.filterMap
    (fun f =>
      if f.1.2.2 = "jpg" ∨ f.1.2.2 = "gif" then some (f.1.2.1, f.1) else none)

/-- `ImageDatabase.__len__`: the number of stored image files. -/
def len (db : ImageDatabase) : Nat := db.list_images.length

/-- `ImageDatabase.load_image_metadata` (the `filtered` variant only
projects fields of the same value). -/
def load_image_metadata (db : ImageDatabase) (index : Nat) :
    Except DbErr Metadata :=
  match fsRead db.jsonFiles (mount_file_name db.bucket_size index "json") with
  | some m => .ok m
  | none => .error .indexError

/-- `ImageDatabase.insert(index, uri)`: import the payload when enabled
and the target does not already exist, then always write the metadata
(when the fetched bytes are an image). -/
def insert (db : ImageDatabase) (index : Nat) (uri : Uri) : ImageDatabase :=
  let db1 :=
    if db.import_images then
      let mounted := mount_file_name db.bucket_size index uri.ext
      if (fsRead db.imageFiles mounted).isSome then db
      else { db with imageFiles := fsWrite db.imageFiles mounted uri.payload }
    else db
  if uri.is_image then
    { db1 with
        jsonFiles := fsWrite db1.jsonFiles
          (mount_file_name db.bucket_size index "json")
          ⟨uri.meta, index, mount_file_name db.bucket_size index uri.ext⟩ }
  else db1

/-- One iteration of `ImageDatabase.remove`'s shift loop: move the image
payload of `old_id` onto the internal path recorded for `old_id - 1`,
then copy the metadata JSON down and patch its `id` and
`internal_path`. -/
def removeStep (db : ImageDatabase) (old_id : Nat) : Except DbErr ImageDatabase :=
  let new_id := old_id - 1
  match db.load_image_metadata old_id with
  | .error e => .error e
  | .ok metaOld =>
    match db.load_image_metadata new_id with
    | .error e => .error e
    | .ok metaNew =>
      match fsMove db.imageFiles metaOld.internal_path metaNew.internal_path with
      | .error e => .error e
      | .ok imgs =>
        .ok { db with
                imageFiles := imgs,
                jsonFiles := fsWrite db.jsonFiles
                  (mount_file_name db.bucket_size new_id "json")
                  { metaOld with
                      id := new_id,
                      internal_path := metaNew.internal_path } }

/-- The shift loop of `ImageDatabase.remove` over the ids
`range(index + 1, len(self))` (the bound evaluated before the loop). -/
def removeLoop : ImageDatabase → List Nat → Except DbErr ImageDatabase
  | db, [] => .ok db
  | db, i :: rest =>
    match db.removeStep i with
    | .error e => .error e
    | .ok db' => removeLoop db' rest

/-- `ImageDatabase.remove(index)` (`database.py` lines 341-393): run the
shift loop, then `os.remove` the metadata JSON at id `len(self)` — with
`len(self)` re-evaluated after the loop. -/
def remove (db : ImageDatabase) (index : Nat) : Except DbErr ImageDatabase :=
  match removeLoop db (List.range' (index + 1) (db.len - (index + 1))) with
  | .error e => .error e
  | .ok db2 =>
    let target := mount_file_name db2.bucket_size db2.len "json"
    match fsRead db2.jsonFiles target with
    | some _ => .ok { db2 with jsonFiles := fsDelete db2.jsonFiles target }
    | none => .error .fileNotFound

end ImageDatabase

-- the coordinator (pupyl/search.py)

/-- Errors surfacing from a coordinator-level remove. -/
inductive PupylErr where
  | idx (e : IndexErr)
  | db (e : DbErr)
deriving DecidableEq, Repr

/-- The two stores a `PupylImageSearch` coordinates (extreme mode: the
indexer and the image database opened on the same data dir). -/
structure PupylImageSearch where
  indexer : Index
  image_database : ImageDatabase
deriving DecidableEq, Repr

/-- `PupylImageSearch.remove(index)`: remove from the vector index, then
from the image database. Python side effects persist past a raised
exception, so the state reached before the failure is returned alongside
the error. -/
def PupylImageSearch.remove (st : PupylImageSearch) (index : Nat) :
    PupylImageSearch × Option PupylErr :=
  match st.indexer.remove index with
  | .error e => (st, some (.idx e))
  | .ok idx' =>
    match st.image_database.remove index with
    | .error e => ({ st with indexer := idx' }, some (.db e))
    | .ok db' => ({ indexer := idx', image_database := db' }, none)

/-- A source image as the store sees it. -/
def exUri0 : Uri := { payload := "img0", ext := "jpg", meta := "m0", is_image := true }

/-- A fresh image database with default bucket size. -/
def emptyDb : ImageDatabase :=
  { bucket_size := 1000, import_images := true, imageFiles := [], jsonFiles := [] }

/-- The database after inserting one image at id 0. -/
def exDb1 : ImageDatabase := emptyDb.insert 0 exUri0

/-- C4 (code bug): on a store of size 1, removing id 0 — the top id —
does not yield size 0: the shift loop is empty, so `len(self)` is still
1 and the final `os.remove` targets the metadata JSON of id 1, which
does not exist. The call raises `FileNotFoundError` and deletes
nothing. -/
theorem C4_remove_top_id_crashes :
    exDb1.len = 1 ∧
    exDb1.load_image_metadata 0 = .ok ⟨"m0", 0, (0, 0, "jpg")⟩ ∧
    exDb1.remove 0 = .error .fileNotFound :=
  ⟨rfl, rfl, rfl⟩

theorem nonNullSingle : ∀ v ∈ ([[1, 0]] : List Vec), vsum v ≠ 0 := by
  intro v hv
  rcases List.mem_cons.mp hv with h | h
  · rw [h]; norm_num [vsum]
  · cases h

/-- C1 (code bug): start from an empty coordinated store, index one
image (id 0 in both stores, the vector index built and persisted on
close, then reopened), and call `PupylImageSearch.remove(0)` — removing
the top id. The vector index drops the id, but the image-store removal
raises `FileNotFoundError` before deleting anything, so afterwards the
VectorIndex holds the id range `0..-1` (empty) while the ImageStore
still holds `0..0`: the shared dense-range invariant is broken. -/
theorem C1_remove_top_breaks_invariant :
    ∃ idx1, Index.appendSeq sqDist false (Index.init 2 (1/1000) none) [[1, 0]]
        = .ok idx1 ∧
      (PupylImageSearch.remove
          { indexer := Index.init 2 (1/1000) ((idx1.exit false).1.file),
            image_database := exDb1 } 0).2
        = some (.db .fileNotFound) ∧
      (PupylImageSearch.remove
          { indexer := Index.init 2 (1/1000) ((idx1.exit false).1.file),
            image_database := exDb1 } 0).1.indexer.tree.length = 0 ∧
      (PupylImageSearch.remove
          { indexer := Index.init 2 (1/1000) ((idx1.exit false).1.file),
            image_database := exDb1 } 0).1.image_database.len = 1 := by
  refine ⟨_, appendSeq_new sqDist [[1, 0]] (Index.init 2 (1/1000) none)
    rfl nonNullSingle, rfl, rfl, rfl⟩

/-- C6 witness: the round trip instantiated with two concrete non-null
vectors of dimension 2. -/
theorem C6_round_trip_witness :
    (∀ v ∈ ([[1, 0], [0, 1]] : List Vec), vsum v ≠ 0) ∧
    ∃ idx1, Index.appendSeq sqDist false (Index.init 2 (1/1000) none)
        [[1, 0], [0, 1]] = .ok idx1 ∧
      (Index.init 2 (1/1000) ((idx1.exit false).1.file)).tree.length = 2 ∧
      (Index.init 2 (1/1000) ((idx1.exit false).1.file)).isNewIndex = false ∧
      ∀ i, (hi : i < ([[1, 0], [0, 1]] : List Vec).length) →
        (Index.init 2 (1/1000) ((idx1.exit false).1.file)).getItem i
          = ([[1, 0], [0, 1]] : List Vec).get ⟨i, hi⟩ :=
  ⟨nonNullPair, C6_round_trip sqDist 2 (1/1000) [[1, 0], [0, 1]] nonNullPair⟩

theorem C10_append_zero_sum_raises_witness :
    vsum [1, -1, 0, 0] = 0 ∧
    ([1, -1, 0, 0] : Vec) ≠ List.replicate 4 (0 : ℚ) ∧
    builtIdx2.append sqDist [1, -1, 0, 0] false = .error .nullTensor :=
  ⟨vsum_example_zero, by norm_num [List.replicate],
    C10_append_zero_sum_raises sqDist builtIdx2 [1, -1, 0, 0] false
      vsum_example_zero⟩
